import Mathlib

/-!
Shallow embedding of `fetch-happen` (src/src/lib.rs), a builder-style
wrapper around the browser fetch primitive, together with proofs of the
specification's claims about it.

Modelling conventions:
* `JsValue`s that only ever carry an error description are modelled as
  `String`.
* The host fetch primitive is an explicit parameter
  `fetch : SentRequest → Except String WebResponse`.
* `serde_json` is external to the repository; serialization of a value of
  type `T` is modelled by an explicit codec `Serde T` whose `to_string`
  and `from_str` stand for `serde_json::to_string` / `serde_json::from_str`.
* Rust's `HashMap<String, String>` is modelled as an association list with
  unique keys via `HMap.insert` (keyed replacement, exactly `HashMap::insert`)
  and `HMap.extend` (`HashMap::extend`: insert every entry of the argument).
  String-key equality in `HashMap` is exact (case-sensitive), and so is it
  here.
-/

/-- Association-list model of `HashMap<String, String>`. -/
abbrev HMap := List (String × String)

/-- Lookup: the value stored under key `k`, if any (`HashMap::get`). -/
def HMap.get : HMap → String → Option String
  | [], _ => none
  | p :: rest, k => if p.1 = k then some p.2 else HMap.get rest k

/-- `HashMap::insert`: store `v` under `k`, replacing an existing entry for
the (exactly equal) key `k`. -/
def HMap.insert : HMap → String → String → HMap
  | [], k, v => [(k, v)]
  | p :: rest, k, v => if p.1 = k then (k, v) :: rest else p :: HMap.insert rest k v

/-- `HashMap::extend`: insert every entry of `other` into `m`, overwriting
on key collision. -/
def HMap.extend (m other : HMap) : HMap :=
  other.foldl (fun acc p => HMap.insert acc p.1 p.2) m

/-- `enum Error` of `lib.rs`: JavaScript error, HTTP error with status
code, or JSON (de)serialization error. -/
inductive Error where
  | JsError (v : String)
  | HttpError (code : Nat) (msg : String)
  | JsonError (msg : String)
deriving DecidableEq, Repr

/-- `enum Method` of `lib.rs`. -/
inductive Method where
  | GET | POST | PUT | DELETE | PATCH | HEAD | OPTIONS
deriving DecidableEq, Repr

/-- `Method::as_str`. -/
def Method.as_str : Method → String
  | .GET => "GET"
  | .POST => "POST"
  | .PUT => "PUT"
  | .DELETE => "DELETE"
  | .PATCH => "PATCH"
  | .HEAD => "HEAD"
  | .OPTIONS => "OPTIONS"

/-- `web_sys::RequestMode` (external enum re-exported by the crate). -/
inductive RequestMode where
  | SameOrigin | NoCors | Cors | Navigate
deriving DecidableEq, Repr

/-- Codec standing for the external `serde_json` (de)serialization of a
type `T`: `to_string` is `serde_json::to_string`, `from_str` is
`serde_json::from_str`; errors carry the message string that
`From<serde_json::Error> for Error` would extract. -/
structure Serde (T : Type) where
  to_string : T → Except String String
  from_str : String → Except String T

/-- A `Serde` codec round-trips at `v` when deserializing any successful
serialization of `v` yields `v` back (the contract of `serde` derive). -/
def Serde.RoundTripsAt {T : Type} (s : Serde T) (v : T) : Prop :=
  ∀ str, s.to_string v = Except.ok str → s.from_str str = Except.ok v

/-- `struct RequestBuilder` of `lib.rs`. -/
structure RequestBuilder where
  url : String
  method : Method
  headers : HMap
  body : Option String
  mode : RequestMode
deriving DecidableEq, Repr

/-- `RequestBuilder::new`: empty headers, no body, `Cors` mode. -/
def RequestBuilder.new (method : Method) (url : String) : RequestBuilder :=
  { url := url, method := method, headers := [], body := none, mode := RequestMode.Cors }

/-- `RequestBuilder::header`: set one header (keyed insert). -/
def RequestBuilder.header (self : RequestBuilder) (key value : String) : RequestBuilder :=
  { self with headers := HMap.insert self.headers key value }

/-- `RequestBuilder::headers` (renamed: the Lean field projection takes the
name `headers`): merge a header map into the accumulated headers,
overwriting on key collision. -/
def RequestBuilder.headersMerge (self : RequestBuilder) (hs : HMap) : RequestBuilder :=
  { self with headers := HMap.extend self.headers hs }

/-- `RequestBuilder::mode` (renamed: the Lean field projection takes the
name `mode`): set the request mode. -/
def RequestBuilder.setMode (self : RequestBuilder) (mode : RequestMode) : RequestBuilder :=
  { self with mode := mode }

/-- `RequestBuilder::body` (renamed: the Lean field projection takes the
name `body`): set the request body as a string. -/
def RequestBuilder.setBody (self : RequestBuilder) (body : String) : RequestBuilder :=
  { self with body := some body }

/-- `RequestBuilder::json`: serialize `v`, set the body to the resulting
string and the `Content-Type` header to `application/json`; propagate a
serialization failure as `Error::JsonError`. -/
def RequestBuilder.json {T : Type} (s : Serde T) (self : RequestBuilder) (v : T) :
    Except Error RequestBuilder :=
  match s.to_string v with
  | Except.error e => Except.error (Error.JsonError e)
  | Except.ok body =>
      Except.ok { self with
        body := some body,
        headers := HMap.insert self.headers "Content-Type" "application/json" }

/-- The host-native response object (`web_sys::Response`): its status and
the outcome the host would produce for reading the body as text
(`text()` + promise + string conversion collapsed into one result). -/
structure WebResponse where
  status : Nat
  textResult : Except String String
deriving Repr

/-- `web_sys::Response::ok`, modelled from the WHATWG fetch standard the
host implements: true iff the status is in the range [200, 299]. -/
def WebResponse.ok (r : WebResponse) : Bool :=
  decide (200 ≤ r.status) && decide (r.status ≤ 299)

/-- The descriptor handed to the host fetch primitive by `send`. -/
structure SentRequest where
  method : String
  url : String
  headers : HMap
  body : Option String
  mode : RequestMode
deriving Repr

/-- The host fetch primitive: consumes the materialized request and either
produces a host response or fails with a JavaScript error. -/
abbrev Fetch := SentRequest → Except String WebResponse

/-- `struct Response` of `lib.rs`: wraps the host response. -/
structure Response where
  inner : WebResponse
deriving Repr

/-- `Response::from_web_response`. -/
def Response.from_web_response (response : WebResponse) : Response :=
  { inner := response }

/-- `Response::status`. -/
def Response.status (self : Response) : Nat :=
  self.inner.status

/-- `Response::ok`: delegates to the host's classification. -/
def Response.ok (self : Response) : Bool :=
  self.inner.ok

/-- `Response::text`: drain the body as a string; host failures surface as
`Error::JsError`. -/
def Response.text (self : Response) : Except Error String :=
  match self.inner.textResult with
  | Except.ok s => Except.ok s
  | Except.error e => Except.error (Error.JsError e)

/-- `Response::json`: read the full body via `text`, then deserialize it;
a parse failure surfaces as `Error::JsonError`. -/
def Response.json {T : Type} (s : Serde T) (self : Response) : Except Error T :=
  match self.text with
  | Except.error e => Except.error e
  | Except.ok t =>
      match s.from_str t with
      | Except.ok v => Except.ok v
      | Except.error e => Except.error (Error.JsonError e)

/-- Dynamic JSON values (`serde_json::Value`), the target type of
`json_value`. -/
inductive Value where
  | null
  | bool (b : Bool)
  | num (n : Int)
  | str (s : String)
  | arr (xs : List Value)
  | obj (fields : List (String × Value))

/-- `Response::json_value`: exactly `json` specialized to dynamic JSON
values (`self.json().await` in the source). -/
def Response.json_value (vs : Serde Value) (self : Response) : Except Error Value :=
  self.json vs

/-- `Response::error_for_status`: identity when `ok()`, otherwise an
`HttpError` carrying the status and the message `"HTTP Error {status}"`. -/
def Response.error_for_status (self : Response) : Except Error Response :=
  if self.ok then Except.ok self
  else Except.error (Error.HttpError self.status ("HTTP Error " ++ toString self.status))

/-- `RequestBuilder::send`: materialize the descriptor and invoke the host
fetch primitive once; a host failure surfaces as `Error::JsError`. -/
def RequestBuilder.send (fetch : Fetch) (self : RequestBuilder) : Except Error Response :=
  match fetch { method := self.method.as_str, url := self.url,
                headers := self.headers, body := self.body, mode := self.mode } with
  | Except.ok w => Except.ok (Response.from_web_response w)
  | Except.error e => Except.error (Error.JsError e)

/-- `struct Client`: stateless facade. -/
structure Client where
deriving DecidableEq, Repr

/-- `Client::get`. -/
def Client.get (_self : Client) (url : String) : RequestBuilder :=
  RequestBuilder.new Method.GET url

/-- `Client::post`. -/
def Client.post (_self : Client) (url : String) : RequestBuilder :=
  RequestBuilder.new Method.POST url

/-- `Client::put`. -/
def Client.put (_self : Client) (url : String) : RequestBuilder :=
  RequestBuilder.new Method.PUT url

/-- `Client::delete`. -/
def Client.delete (_self : Client) (url : String) : RequestBuilder :=
  RequestBuilder.new Method.DELETE url

/-- `Client::patch`. -/
def Client.patch (_self : Client) (url : String) : RequestBuilder :=
  RequestBuilder.new Method.PATCH url

/-- Module-level convenience `get`: `Client.get(url).send().await`. -/
def get (fetch : Fetch) (url : String) : Except Error Response :=
  RequestBuilder.send fetch (Client.get Client.mk url)

/-- Module-level convenience `post_json`:
`Client.post(url).json(json)?.send().await`. -/
def post_json {T : Type} (fetch : Fetch) (s : Serde T) (url : String) (v : T) :
    Except Error Response :=
  match RequestBuilder.json s (Client.post Client.mk url) v with
  | Except.ok b => RequestBuilder.send fetch b
  | Except.error e => Except.error e

/-- One header-setting operation on a builder: a single `header(k, v)` call
or a `headers(m)` merge call. -/
inductive HeaderOp where
  | single (k v : String)
  | merge (m : HMap)

/-- Apply one header-setting operation. -/
def applyOp (b : RequestBuilder) : HeaderOp → RequestBuilder
  | HeaderOp.single k v => b.header k v
  | HeaderOp.merge m => b.headersMerge m

/-- Apply a sequence of header-setting operations, left to right. -/
def applyOps (b : RequestBuilder) (ops : List HeaderOp) : RequestBuilder :=
  ops.foldl applyOp b

/-- The value an operation writes for key `k`, if it mentions `k`:
a `single k v` call writes `v`; a `merge m` call writes the last binding
of `k` in `m` (the binding `HashMap::extend` would leave in place). -/
def opValueFor (k : String) : HeaderOp → Option String
  | HeaderOp.single k2 v => if k2 = k then some v else none
  | HeaderOp.merge m => HMap.get m.reverse k

/-- The value written for `k` by the last operation of `ops` mentioning
`k`, if any. -/
def lastWrite (k : String) : List HeaderOp → Option String
  | [] => none
  | op :: rest =>
      match lastWrite k rest with
      | some v => some v
      | none => opValueFor k op

/-- Model of the external `serde_json` codec for `bool`: serializes to the
literals `true` / `false` and parses exactly those back. -/
def boolSerde : Serde Bool where
  to_string := fun b => Except.ok (if b then "true" else "false")
  from_str := fun str =>
    if str = "true" then Except.ok true
    else if str = "false" then Except.ok false
    else Except.error "invalid bool"

/-- Model of a value `serde_json` cannot encode (e.g. a map with non-string
keys): every serialization attempt fails. -/
def failSerde : Serde Unit where
  to_string := fun _ => Except.error "key must be a string"
  from_str := fun _ => Except.error "key must be a string"

/-! ### Lookup lemmas for the header map -/

/-- Lookup after keyed insert: the inserted key reads back the new value,
every other key is untouched. -/
theorem HMap.get_insert (m : HMap) (k v k2 : String) :
    HMap.get (HMap.insert m k v) k2 = if k = k2 then some v else HMap.get m k2 := by
  induction m with
  | nil => simp [HMap.insert, HMap.get]
  | cons p rest ih =>
    by_cases h1 : p.1 = k
    · by_cases h2 : k = k2 <;> simp [HMap.insert, HMap.get, h1, h2]
    · by_cases h2 : p.1 = k2
      · have h3 : ¬ k2 = k := fun h => h1 (h2.trans h)
        have h4 : ¬ k = k2 := fun h => h3 h.symm
        simp [HMap.insert, HMap.get, h1, h2, h3, h4]
      · simp [HMap.insert, HMap.get, h1, h2, ih]

/-- Lookup distributes over append, preferring the left list. -/
theorem HMap.get_append (l1 l2 : HMap) (k : String) :
    HMap.get (l1 ++ l2) k =
      match HMap.get l1 k with
      | some v => some v
      | none => HMap.get l2 k := by
  induction l1 with
  | nil => simp [HMap.get]
  | cons p rest ih => by_cases h : p.1 = k <;> simp [HMap.get, h, ih]

/-- Lookup after `extend`: the argument map wins, at its last binding of
the key; otherwise the original map is consulted. -/
theorem HMap.get_extend (m other : HMap) (k : String) :
    HMap.get (HMap.extend m other) k =
      match HMap.get other.reverse k with
      | some v => some v
      | none => HMap.get m k := by
  induction other generalizing m with
  | nil => simp [HMap.extend, HMap.get]
  | cons p rest ih =>
    have step : HMap.extend m (p :: rest) = HMap.extend (HMap.insert m p.1 p.2) rest := rfl
    rw [step, ih, List.reverse_cons, HMap.get_append, HMap.get_insert]
    cases HMap.get rest.reverse k <;> by_cases h : p.1 = k <;> simp [HMap.get, h]

/-! ### Claim theorems -/

/-- C1: for every serializable value `v` and builder `b`, `b.json(&v)`
succeeds with body exactly `serde_json::to_string(v)` and the
`Content-Type` header mapped to `application/json`; provided the codec
round-trips at `v` (the `serde` contract), deserializing that body yields
`v`; and when `v` cannot be encoded, `json` fails with `JsonError`. -/
theorem json_sets_body_and_content_type {T : Type} (s : Serde T)
    (b : RequestBuilder) (v : T) :
    (∀ str, s.to_string v = Except.ok str →
        ∃ b2, RequestBuilder.json s b v = Except.ok b2 ∧
          b2.body = some str ∧
          HMap.get b2.headers "Content-Type" = some "application/json" ∧
          (Serde.RoundTripsAt s v → s.from_str str = Except.ok v)) ∧
    (∀ e, s.to_string v = Except.error e →
        RequestBuilder.json s b v = Except.error (Error.JsonError e)) := by
  constructor
  · intro str h
    have hok : RequestBuilder.json s b v =
        Except.ok { b with
                    body := some str
                    headers := HMap.insert b.headers "Content-Type" "application/json" } := by
      simp [RequestBuilder.json, h]
    exact ⟨_, hok, rfl, by simp [HMap.get_insert], fun hrt => hrt str h⟩
  · intro e h
    simp [RequestBuilder.json, h]

/-- C1 witness: serializing `true` with the `bool` codec at a fresh POST
builder yields body `"true"`, the `application/json` content type, and a
body that deserializes back to `true`. -/
theorem json_sets_body_and_content_type_witness :
    ∃ b2, RequestBuilder.json boolSerde (RequestBuilder.new Method.POST "https://x") true
            = Except.ok b2 ∧
      b2.body = some "true" ∧
      HMap.get b2.headers "Content-Type" = some "application/json" ∧
      boolSerde.from_str "true" = Except.ok true := by
  obtain ⟨b2, h1, h2, h3, h4⟩ :=
    (json_sets_body_and_content_type boolSerde
        (RequestBuilder.new Method.POST "https://x") true).1 "true" rfl
  exact ⟨b2, h1, h2, h3, h4 (fun str h => by injection h with h5; subst h5; rfl)⟩

/-- C2: `error_for_status` returns the response unchanged when `ok()`
holds, and otherwise an `HttpError` with the numeric status and message
`"HTTP Error {code}"`; at status 404 it yields
`HttpError 404 "HTTP Error 404"`, at status 200 the response itself. -/
theorem error_for_status_spec :
    (∀ r : Response, r.ok = true → Response.error_for_status r = Except.ok r) ∧
    (∀ r : Response, r.ok = false →
        Response.error_for_status r =
          Except.error (Error.HttpError r.status ("HTTP Error " ++ toString r.status))) ∧
    (∀ t, Response.error_for_status ⟨⟨404, t⟩⟩ =
        Except.error (Error.HttpError 404 "HTTP Error 404")) ∧
    (∀ t, Response.error_for_status ⟨⟨200, t⟩⟩ = Except.ok ⟨⟨200, t⟩⟩) := by
  refine ⟨fun r h => by simp [Response.error_for_status, h],
          fun r h => by simp [Response.error_for_status, h],
          fun t => ?_, fun t => rfl⟩
  have hmsg : "HTTP Error " ++ toString (404 : Nat) = "HTTP Error 404" := rfl
  simp [Response.error_for_status, Response.ok, WebResponse.ok, Response.status, hmsg]

/-- C2 witness: a status-200 response passes through unchanged. -/
theorem error_for_status_witness :
    Response.error_for_status ⟨⟨200, Except.ok "body"⟩⟩ = Except.ok ⟨⟨200, Except.ok "body"⟩⟩ :=
  error_for_status_spec.1 ⟨⟨200, Except.ok "body"⟩⟩ rfl

/-- C3: `ok()` is true exactly when the status lies in [200, 299];
in particular it is true at 299 and false at 199 and 300. -/
theorem ok_iff_status_in_2xx :
    (∀ r : Response, r.ok = true ↔ (200 ≤ r.status ∧ r.status ≤ 299)) ∧
    Response.ok ⟨⟨299, Except.ok ""⟩⟩ = true ∧
    Response.ok ⟨⟨199, Except.ok ""⟩⟩ = false ∧
    Response.ok ⟨⟨300, Except.ok ""⟩⟩ = false := by
  refine ⟨fun r => ?_, rfl, rfl, rfl⟩
  simp [Response.ok, WebResponse.ok, Response.status]

/-- C4: over any sequence of `header(k, v)` and `headers(m)` calls, the
final value under a key is the one written by the last operation
mentioning it (falling back to the builder's prior binding); a single
`header` call overwrites the existing entry for its key, and a `headers`
merge overwrites on key collision. -/
theorem last_header_write_wins :
    (∀ b ops k, HMap.get (applyOps b ops).headers k =
        match lastWrite k ops with
        | some v => some v
        | none => HMap.get b.headers k) ∧
    (∀ (b : RequestBuilder) k v, HMap.get (b.header k v).headers k = some v) ∧
    (∀ (b : RequestBuilder) m k, HMap.get (b.headersMerge m).headers k =
        match HMap.get m.reverse k with
        | some v => some v
        | none => HMap.get b.headers k) := by
  refine ⟨fun b ops k => ?_, fun b k v => by simp [RequestBuilder.header, HMap.get_insert],
          fun b m k => by simp [RequestBuilder.headersMerge, HMap.get_extend]⟩
  induction ops generalizing b with
  | nil => rfl
  | cons op rest ih =>
    have step : applyOps b (op :: rest) = applyOps (applyOp b op) rest := rfl
    rw [step, ih]
    show _ = (match (match lastWrite k rest with
                     | some v => some v
                     | none => opValueFor k op) with
              | some v => some v
              | none => HMap.get b.headers k)
    cases lastWrite k rest with
    | some v => rfl
    | none =>
      cases op with
      | single k2 v =>
        by_cases h : k2 = k <;>
          simp [applyOp, RequestBuilder.header, HMap.get_insert, opValueFor, h]
      | merge m =>
        simp only [applyOp, RequestBuilder.headersMerge, HMap.get_extend, opValueFor]

/-- C5 counterexample: the builder's header map is backed by a
case-sensitive `HashMap<String, String>`, so `header("content-type", "a")`
followed by `header("Content-Type", "b")` leaves TWO entries (one per case
variant) and the first key still reads back its own value `"a"` — refuting
the claim that case variants collapse to a single entry holding the last
value. -/
theorem header_case_insensitive_cex :
    (((RequestBuilder.new Method.GET "u").header "content-type" "a").header
        "Content-Type" "b").headers
      = [("content-type", "a"), ("Content-Type", "b")] ∧
    List.countP (fun p => p.1 == "content-type" || p.1 == "Content-Type")
        ((((RequestBuilder.new Method.GET "u").header "content-type" "a").header
            "Content-Type" "b").headers) = 2 ∧
    HMap.get (((RequestBuilder.new Method.GET "u").header "content-type" "a").header
        "Content-Type" "b").headers "content-type" = some "a" := by
  refine ⟨rfl, ?_, rfl⟩
  rfl

/-- C5 amended: header keys in the descriptor are compared exactly
(case-sensitively): keys that differ in case create separate entries, each
retaining its own value; last write wins only among exactly equal keys. -/
theorem header_case_sensitive_distinct (b : RequestBuilder) (k1 k2 v1 v2 : String)
    (h : k1 ≠ k2) :
    HMap.get ((b.header k1 v1).header k2 v2).headers k1 = some v1 ∧
    HMap.get ((b.header k1 v1).header k2 v2).headers k2 = some v2 := by
  have h2 : ¬ k2 = k1 := fun e => h e.symm
  constructor <;> simp [RequestBuilder.header, HMap.get_insert, h, h2]

/-- C5 witness: with the case variants `x-a` / `X-A`, each key keeps its
own value. -/
theorem header_case_sensitive_distinct_witness :
    HMap.get (((RequestBuilder.new Method.GET "u").header "x-a" "1").header
        "X-A" "2").headers "x-a" = some "1" ∧
    HMap.get (((RequestBuilder.new Method.GET "u").header "x-a" "1").header
        "X-A" "2").headers "X-A" = some "2" :=
  header_case_sensitive_distinct (RequestBuilder.new Method.GET "u") "x-a" "X-A" "1" "2"
    (by decide)

/-- C6: the module-level `get` is exactly `Client.get(url).send()`,
`post_json` is exactly `Client.post(url).json(v)` bound into `send()`, and
when serialization fails `post_json` yields that `JsonError` whatever the
host fetch primitive is — no network call can influence the outcome. -/
theorem convenience_functions_equiv :
    (∀ (fetch : Fetch) url, get fetch url =
        RequestBuilder.send fetch (Client.get Client.mk url)) ∧
    (∀ (T : Type) (s : Serde T) (fetch : Fetch) url v,
        post_json fetch s url v =
          Except.bind (RequestBuilder.json s (Client.post Client.mk url) v)
            (RequestBuilder.send fetch)) ∧
    (∀ (T : Type) (s : Serde T) url v e, s.to_string v = Except.error e →
        ∀ fetch : Fetch, post_json fetch s url v = Except.error (Error.JsonError e)) := by
  refine ⟨fun fetch url => rfl, fun T s fetch url v => ?_, fun T s url v e h fetch => ?_⟩
  · cases hj : RequestBuilder.json s (Client.post Client.mk url) v <;>
      simp [post_json, hj, Except.bind]
  · simp [post_json, RequestBuilder.json, h]

/-- C6 witness: an unserializable value makes `post_json` fail with the
serialization error even when the host fetch itself would fail. -/
theorem convenience_functions_equiv_witness :
    failSerde.to_string () = Except.error "key must be a string" ∧
    post_json (fun _ => Except.error "network down") failSerde "https://x" () =
      Except.error (Error.JsonError "key must be a string") :=
  ⟨rfl, convenience_functions_equiv.2.2 Unit failSerde "https://x" () "key must be a string"
      rfl (fun _ => Except.error "network down")⟩

/-- C7: each of the five facade methods returns a fresh builder carrying
the corresponding verb, the given URL, empty headers, no body, and `Cors`
mode. -/
theorem client_factory_spec (url : String) :
    Client.get Client.mk url =
      { url := url, method := Method.GET, headers := [], body := none,
        mode := RequestMode.Cors } ∧
    Client.post Client.mk url =
      { url := url, method := Method.POST, headers := [], body := none,
        mode := RequestMode.Cors } ∧
    Client.put Client.mk url =
      { url := url, method := Method.PUT, headers := [], body := none,
        mode := RequestMode.Cors } ∧
    Client.delete Client.mk url =
      { url := url, method := Method.DELETE, headers := [], body := none,
        mode := RequestMode.Cors } ∧
    Client.patch Client.mk url =
      { url := url, method := Method.PATCH, headers := [], body := none,
        mode := RequestMode.Cors } :=
  ⟨rfl, rfl, rfl, rfl, rfl⟩

/-- C8: `json` is `text` followed by deserialization — succeeding when the
parse succeeds, failing with `JsonError` when the text does not parse, and
propagating a `text` failure; `json_value` is exactly `json` at the
dynamic JSON value type. -/
theorem response_json_via_text (T : Type) (s : Serde T) (r : Response) :
    (∀ t v, r.text = Except.ok t → s.from_str t = Except.ok v →
        Response.json s r = Except.ok v) ∧
    (∀ t e, r.text = Except.ok t → s.from_str t = Except.error e →
        Response.json s r = Except.error (Error.JsonError e)) ∧
    (∀ e, r.text = Except.error e → Response.json s r = Except.error e) ∧
    (∀ vs : Serde Value, Response.json_value vs r = Response.json vs r) :=
  ⟨fun t v ht hv => by simp [Response.json, ht, hv],
   fun t e ht he => by simp [Response.json, ht, he],
   fun e he => by simp [Response.json, he],
   fun _ => rfl⟩

/-- C8 witness: a body reading `"false"` decodes to the boolean `false`. -/
theorem response_json_via_text_witness :
    Response.json boolSerde ⟨⟨200, Except.ok "false"⟩⟩ = Except.ok false :=
  (response_json_via_text Bool boolSerde ⟨⟨200, Except.ok "false"⟩⟩).1 "false" false rfl rfl

/-- C9: each configuration call touches only its own field — `mode` only
the mode, `body` only the body, `header` / `headers` only the header map —
leaving url, method and every other field unchanged. -/
theorem builder_config_frame (b : RequestBuilder) (m : RequestMode) (s k v : String)
    (hs : HMap) :
    ((b.setMode m).url = b.url ∧ (b.setMode m).method = b.method ∧
      (b.setMode m).headers = b.headers ∧ (b.setMode m).body = b.body ∧
      (b.setMode m).mode = m) ∧
    ((b.setBody s).url = b.url ∧ (b.setBody s).method = b.method ∧
      (b.setBody s).headers = b.headers ∧ (b.setBody s).mode = b.mode ∧
      (b.setBody s).body = some s) ∧
    ((b.header k v).url = b.url ∧ (b.header k v).method = b.method ∧
      (b.header k v).body = b.body ∧ (b.header k v).mode = b.mode) ∧
    ((b.headersMerge hs).url = b.url ∧ (b.headersMerge hs).method = b.method ∧
      (b.headersMerge hs).body = b.body ∧ (b.headersMerge hs).mode = b.mode) :=
  ⟨⟨rfl, rfl, rfl, rfl, rfl⟩, ⟨rfl, rfl, rfl, rfl, rfl⟩,
   ⟨rfl, rfl, rfl, rfl⟩, ⟨rfl, rfl, rfl, rfl⟩⟩

/-- C10: after a successful `json(v)`, overwriting the body with `body(s)`
replaces the body with `s` but leaves the `Content-Type` header at
`application/json`. -/
theorem body_after_json_keeps_content_type (T : Type) (s : Serde T)
    (b b2 : RequestBuilder) (v : T) (str : String)
    (h : RequestBuilder.json s b v = Except.ok b2) :
    (b2.setBody str).body = some str ∧
    HMap.get (b2.setBody str).headers "Content-Type" = some "application/json" := by
  refine ⟨rfl, ?_⟩
  unfold RequestBuilder.json at h
  cases hts : s.to_string v with
  | error e => rw [hts] at h; exact absurd h (by simp)
  | ok bodyStr =>
    rw [hts] at h
    injection h with h2
    subst h2
    simp [RequestBuilder.setBody, HMap.get_insert]

/-- C10 witness: after `json(true)` on a fresh POST builder, `body("x")`
swaps the body for `"x"` while the JSON content type stays. -/
theorem body_after_json_keeps_content_type_witness :
    (RequestBuilder.setBody
        { url := "u", method := Method.POST,
          headers := [("Content-Type", "application/json")], body := some "true",
          mode := RequestMode.Cors } "x").body = some "x" ∧
    HMap.get (RequestBuilder.setBody
        { url := "u", method := Method.POST,
          headers := [("Content-Type", "application/json")], body := some "true",
          mode := RequestMode.Cors } "x").headers "Content-Type" =
      some "application/json" :=
  body_after_json_keeps_content_type Bool boolSerde
    (RequestBuilder.new Method.POST "u")
    { url := "u", method := Method.POST,
      headers := [("Content-Type", "application/json")], body := some "true",
      mode := RequestMode.Cors } true "x" rfl
